import Mathlib

/-!
Shallow embedding of the optimistic message synchronization engine of the
ChatterBox chat client: the `ChatterBoxApp` component, its socket event
handlers (`receive_message`, `message_status_update`, `group_created`,
`direct_chat_started`, `disconnect`, `initial_data`) and its user-action
handlers (`handleSendMessage` with its success and failure acknowledgement
branches, `handleSelectChat`, `handleCreateGroup`).

Each definition mirrors one handler or one branch of a handler from the
source. React state updates of the form `setChats(prev => ...)` are
embedded as pure functions `List Chat → List Chat`; socket emissions are
modelled as values of `SocketEvent`.
-/

namespace ChatterBox

/-- Modelled from the spec: the value vocabulary of the `Message.status`
field (`pending`, `sent`, `delivered`, `read`, `failed`); the `@/types`
module that declares the `Message` type is not among the sources, only its
uses are. The handlers in the sources only ever assign `sent`, `delivered`
and `read`, or clear the field to `undefined`. -/
inductive MessageStatus where
  | pending
  | sent
  | delivered
  | read
  | failed
  deriving DecidableEq

/-- The `MessageType` union as used by the handlers and `MessageBubble`. -/
inductive MessageType where
  | text
  | image
  | video
  | call_start
  | call_end
  deriving DecidableEq

/-- Structure `User` as used by the handlers: `{id, name, avatarUrl, isOnline}`. -/
structure User where
  id : String
  name : String
  avatarUrl : String
  isOnline : Bool
  deriving DecidableEq

/-- Structure `Message` as used by the handlers: `status` and `error` are optional
fields (`undefined` is `none`); `timestamp` (a `Date`) is its numeric
value. -/
structure Message where
  id : String
  sender : User
  content : String
  timestamp : Nat
  type : MessageType
  status : Option MessageStatus
  error : Option String
  deriving DecidableEq

/-- Structure `Chat` as used by the handlers. `unreadCount` is a `Nat`; the source
reads it as `chat.unreadCount || 0`, so `undefined` and `0` are
indistinguishable and both map to `0`. Likewise `chat.messages || []`
maps `undefined` to `[]`. -/
structure Chat where
  id : String
  name : Option String
  isGroup : Bool
  participants : List User
  messages : List Message
  lastMessage : Option Message
  unreadCount : Nat
  deriving DecidableEq

/-- Client-to-server socket emissions performed inside the embedded
handlers. -/
inductive SocketEvent where
  | mark_as_read (chatId userId : String)
  | send_message (chatId : String) (m : Message)
  | request_initial_data
  deriving DecidableEq

/-- The module-level fallback user list `initialAvailableUsers`. -/
def initialAvailableUsers : List User :=
  [ { id := "user1", name := "Alice", avatarUrl := "https://picsum.photos/seed/alice/100/100", isOnline := false },
    { id := "user2", name := "Bob", avatarUrl := "https://picsum.photos/seed/bob/100/100", isOnline := false },
    { id := "user3", name := "Charlie", avatarUrl := "https://picsum.photos/seed/charlie/100/100", isOnline := false },
    { id := "user4", name := "Diana", avatarUrl := "https://picsum.photos/seed/diana/100/100", isOnline := false } ]

/-- The per-chat update performed inside the `receive_message` handler map:
for the addressed chat, drop the message if its id is already present,
otherwise append it, set `lastMessage` to it, and set `unreadCount` to `0`
when the chat is the selected one, else increment it. -/
def receiveUpdateChat (sel : Option String) (newMessage : Message) (chatId : String) (chat : Chat) : Chat :=
  if chat.id == chatId then
    if chat.messages.any (fun m => m.id == newMessage.id) then chat
    else
      { chat with
          messages := chat.messages ++ [newMessage],
          lastMessage := some newMessage,
          unreadCount := if some chat.id == sel then 0 else chat.unreadCount + 1 }
  else chat

/-- The `findIndex` / `splice` / unshift sequence at the end of the
`receive_message` handler: move the first chat whose id matches to
index `0`. -/
def moveChatToFront (chatId : String) (l : List Chat) : List Chat :=
  match l.findIdx? (fun c => c.id == chatId) with
  | some i =>
    match l.get? i with
    | some movedChat => movedChat :: (l.take i ++ l.drop (i + 1))
    | none => l
  | none => l

/-- The `receive_message` socket handler state update: if the chat is
unknown the previous state is returned unchanged (the handler only emits
`request_initial_data`); otherwise every chat is mapped through
`receiveUpdateChat` and the addressed chat is moved to the front. -/
def receive_message (sel : Option String) (newMessage : Message) (chatId : String) (prevChats : List Chat) : List Chat :=
  if !(prevChats.any (fun chat => chat.id == chatId)) then prevChats
  else moveChatToFront chatId (prevChats.map (receiveUpdateChat sel newMessage chatId))

/-- Folding a sequence of `receive_message` deliveries for one chat over
the store. -/
def receiveAll (sel : Option String) (chatId : String) (msgs : List Message) (prevChats : List Chat) : List Chat :=
  msgs.foldl (fun acc m => receive_message sel m chatId acc) prevChats

/-- The per-message update of the `message_status_update` handler:
`m.id === messageId ? { ...m, status } : m`. -/
def statusRename (messageId : String) (st : MessageStatus) (m : Message) : Message :=
  if m.id == messageId then { m with status := some st } else m

/-- The `message_status_update` socket handler: in the addressed chat,
set the status of the message with the given id to the received value.
The source restricts the received value to `delivered` or `read`. -/
def message_status_update (chatId messageId : String) (st : MessageStatus) (prevChats : List Chat) : List Chat :=
  prevChats.map (fun chat =>
    if chat.id == chatId then
      { chat with messages := chat.messages.map (statusRename messageId st) }
    else chat)

/-- The guard of the `handleSelectChat` update:
`chat.id === chatId && chat.unreadCount && chat.unreadCount > 0 && currentUser`.
With `unreadCount : Nat` the two middle truthiness tests collapse to
`0 < unreadCount`; `cur` is the id of the current user when one exists. -/
def selectChatGuard (cur : Option String) (chatId : String) (chat : Chat) : Bool :=
  chat.id == chatId && decide (0 < chat.unreadCount) && cur.isSome

/-- The per-chat update of `handleSelectChat`: reset `unreadCount` to `0`
when the guard holds. -/
def selectChatUpdateChat (cur : Option String) (chatId : String) (chat : Chat) : Chat :=
  if selectChatGuard cur chatId chat then { chat with unreadCount := 0 } else chat

/-- The `handleSelectChat` state update (the handler also sets
`selectedChatId := chatId` and the view, which are not part of the chat
list). -/
def handleSelectChat (cur : Option String) (chatId : String) (prevChats : List Chat) : List Chat :=
  prevChats.map (selectChatUpdateChat cur chatId)

/-- Handler `handleSelectChat` emits `mark_as_read` once per chat for which its
guard holds (the emission sits inside the map over the previous chats). -/
def selectChatEmitCount (cur : Option String) (chatId : String) (prevChats : List Chat) : Nat :=
  (prevChats.filter (selectChatGuard cur chatId)).length

/-- The message constructed by `handleSendMessage`: a fresh temporary id,
the current user as sender, and initial client-side status `sent`. -/
def mkSendMessage (tempId : String) (sender : User) (content : String) (timestamp : Nat) (type : MessageType) : Message :=
  { id := tempId, sender := sender, content := content, timestamp := timestamp,
    type := type, status := some MessageStatus.sent, error := none }

/-- The optimistic state update of `handleSendMessage`: find the target
chat by id (bail out unchanged if absent), append the new message, set
`lastMessage`, reset `unreadCount` to `0`, and move the chat to the
front by slicing it out. Note that this update does not consult
`selectedChatId` at all. -/
def sendMessageOptimistic (newMessage : Message) (chatId : String) (prevChats : List Chat) : List Chat :=
  match prevChats.findIdx? (fun chat => chat.id == chatId) with
  | none => prevChats
  | some i =>
    match prevChats.get? i with
    | none => prevChats
    | some targetChat =>
      { targetChat with
          messages := targetChat.messages ++ [newMessage],
          lastMessage := some newMessage,
          unreadCount := 0 } :: (prevChats.take i ++ prevChats.drop (i + 1))

/-- The socket emissions of `handleSendMessage`: exactly one
`send_message`, regardless of the optimistic update outcome. -/
def handleSendMessageEmits (chatId : String) (newMessage : Message) : List SocketEvent :=
  [SocketEvent.send_message chatId newMessage]

/-- The per-message update of the success-acknowledgement branch of
`handleSendMessage`:
`m.id === tempId ? { ...m, id: ack.messageId, status: 'delivered' } : m`. -/
def ackRename (tempId serverId : String) (m : Message) : Message :=
  if m.id == tempId then { m with id := serverId, status := some MessageStatus.delivered } else m

/-- The per-chat update of the success-acknowledgement branch of
`handleSendMessage`: rename the temporary id in the message list and, when
`lastMessage` pointed at the temporary id, repoint it at the renamed entry
found in the updated list (falling back to the old `lastMessage`). -/
def sendMessageSuccessAckChat (chatId tempId serverId : String) (chat : Chat) : Chat :=
  if chat.id == chatId then
    let updatedMessages := chat.messages.map (ackRename tempId serverId)
    let updatedLastMessage :=
      match chat.lastMessage with
      | some lm =>
        if lm.id == tempId then
          match updatedMessages.find? (fun m => m.id == serverId) with
          | some m => some m
          | none => chat.lastMessage
        else chat.lastMessage
      | none => chat.lastMessage
    { chat with messages := updatedMessages, lastMessage := updatedLastMessage }
  else chat

/-- The success-acknowledgement state update of `handleSendMessage`. -/
def sendMessageSuccessAck (chatId tempId serverId : String) (prevChats : List Chat) : List Chat :=
  prevChats.map (sendMessageSuccessAckChat chatId tempId serverId)

/-- JavaScript `a || b` on an optional string: the fallback is used when
the value is absent or empty. -/
def jsOrElse (s : Option String) (d : String) : String :=
  match s with
  | some e => if e == "" then d else e
  | none => d

/-- The per-message update of the failure-acknowledgement branch of
`handleSendMessage`:
`m.id === tempId ? { ...m, status: undefined, error: ack.error || "Failed to send" } : m`. -/
def failRename (tempId : String) (err : Option String) (m : Message) : Message :=
  if m.id == tempId then
    { m with status := none, error := some (jsOrElse err "Failed to send") }
  else m

/-- The per-chat update of the failure-acknowledgement branch of
`handleSendMessage`: mark the message as failed via `failRename` and, when
`lastMessage` pointed at the temporary id, revert it to the last message
whose id differs from the temporary id. -/
def sendMessageFailureAckChat (chatId tempId : String) (err : Option String) (chat : Chat) : Chat :=
  if chat.id == chatId then
    let revertedMessages := chat.messages.map (failRename tempId err)
    let lastValidMessage := (revertedMessages.filter (fun m => !(m.id == tempId))).getLast?
    let revertedLastMessage :=
      match chat.lastMessage with
      | some lm => if lm.id == tempId then lastValidMessage else chat.lastMessage
      | none => none
    { chat with messages := revertedMessages, lastMessage := revertedLastMessage }
  else chat

/-- The failure-acknowledgement state update of `handleSendMessage`. -/
def sendMessageFailureAck (chatId tempId : String) (err : Option String) (prevChats : List Chat) : List Chat :=
  prevChats.map (sendMessageFailureAckChat chatId tempId err)

/-- The `group_created` broadcast handler: ignore the chat if its id is
already present, otherwise prepend it. -/
def group_created (newChat : Chat) (prevChats : List Chat) : List Chat :=
  if prevChats.any (fun chat => chat.id == newChat.id) then prevChats
  else newChat :: prevChats

/-- The success branch of the `create_group` acknowledgement: if the chat
id is already present, replace that chat with the acknowledged payload and
move it to the front, otherwise prepend it. -/
def createGroupAck (newChat : Chat) (prevChats : List Chat) : List Chat :=
  if prevChats.any (fun c => c.id == newChat.id) then
    newChat :: prevChats.filter (fun c => !(c.id == newChat.id))
  else newChat :: prevChats

/-- The `direct_chat_started` handler: if the chat id is already present,
the incoming payload replaces the stored chat wholesale and is moved to
the front, otherwise it is prepended. -/
def direct_chat_started (newChat : Chat) (prevChats : List Chat) : List Chat :=
  if prevChats.any (fun c => c.id == newChat.id) then
    newChat :: prevChats.filter (fun c => !(c.id == newChat.id))
  else newChat :: prevChats

/-- The slice of component state touched by the `disconnect` and
`initial_data` handlers. -/
structure AppState where
  chats : List Chat
  availableUsers : List User
  selectedChatId : Option String
  deriving DecidableEq

/-- The `disconnect` handler: for any reason other than the explicit
client disconnect issued by logout, clear the chat list, reset the user
list to the module-level fallback, and clear the selection. -/
def onDisconnect (reason : String) (s : AppState) : AppState :=
  if reason ≠ "io client disconnect" then
    { s with chats := [], availableUsers := initialAvailableUsers, selectedChatId := none }
  else s

/-- Truthiness of `record[key]` for the `onlineUsers` record of
`initial_data` (a map from user id to socket id, embedded as an
association list): present and non-empty. -/
def truthyLookup (rec : List (String × String)) (k : String) : Bool :=
  match rec.find? (fun p => p.1 == k) with
  | some p => !(p.2 == "")
  | none => false

/-- The user-list computation of the `initial_data` handler: take the
server list when non-empty (else the fallback), append the current user
when absent, then set every `isOnline` flag from the online snapshot,
forcing the current user online. -/
def initialDataUsers (initialUser : User) (allUsers : List User) (onlineUsers : List (String × String)) : List User :=
  let baseUsers := if 0 < allUsers.length then allUsers else initialAvailableUsers
  let withSelf :=
    if baseUsers.any (fun u => u.id == initialUser.id) then baseUsers
    else baseUsers ++ [initialUser]
  withSelf.map (fun u =>
    { u with isOnline := truthyLookup onlineUsers u.id || u.id == initialUser.id })

/-- Look up a message by chat id and message id in a store. -/
def findMessage (chats : List Chat) (chatId msgId : String) : Option Message :=
  match chats.find? (fun c => c.id == chatId) with
  | some c => c.messages.find? (fun m => m.id == msgId)
  | none => none

theorem findIdx?_append_cons {α : Type} (p : α → Bool) (pre post : List α) (x : α)
    (hx : p x = true) (hpre : ∀ c ∈ pre, p c = false) :
    (pre ++ x :: post).findIdx? p = some pre.length := by
  induction pre with
  | nil => simp [List.findIdx?_cons, hx]
  | cons a as ih =>
    have ha := hpre a (by simp)
    have ih2 := ih (fun c hc => hpre c (by simp [hc]))
    simp [List.findIdx?_cons, ha, ih2]

theorem getElem?_append_cons {α : Type} (pre post : List α) (x : α) :
    (pre ++ x :: post)[pre.length]? = some x := by
  induction pre with
  | nil => simp
  | cons a as ih => simpa using ih

theorem splice_append_cons {α : Type} (pre post : List α) (x : α) :
    (pre ++ x :: post).take pre.length ++ (pre ++ x :: post).drop (pre.length + 1) = pre ++ post := by
  induction pre with
  | nil => simp
  | cons a as ih => simpa using ih

theorem map_id_of_fixed {α : Type} (f : α → α) (l : List α) (h : ∀ a ∈ l, f a = a) :
    l.map f = l := by
  induction l with
  | nil => rfl
  | cons a as ih =>
    have ha := h a (by simp)
    simp only [List.map_cons, ha, ih (fun c hc => h c (by simp [hc]))]

theorem some_beq_eq_false {o : Option String} {s : String} (h : o ≠ some s) :
    (some s == o) = false := by
  cases o with
  | none => rfl
  | some t =>
    have hst : s ≠ t := fun he => h (by rw [he])
    simp [hst]

theorem receiveUpdateChat_id (sel : Option String) (m : Message) (chatId : String) (c : Chat) :
    (receiveUpdateChat sel m chatId c).id = c.id := by
  unfold receiveUpdateChat
  split
  · split
    · rfl
    · rfl
  · rfl

theorem receiveUpdateChat_skip (sel : Option String) (m : Message) (chatId : String) (c : Chat)
    (h : c.id ≠ chatId) : receiveUpdateChat sel m chatId c = c := by
  unfold receiveUpdateChat
  have hb : (c.id == chatId) = false := by simp [h]
  simp [hb]

theorem sendMessageSuccessAckChat_id (chatId tempId serverId : String) (c : Chat) :
    (sendMessageSuccessAckChat chatId tempId serverId c).id = c.id := by
  unfold sendMessageSuccessAckChat
  split
  · rfl
  · rfl

theorem moveChatToFront_eq (chatId : String) (pre post : List Chat) (x : Chat)
    (hx : (x.id == chatId) = true) (hpre : ∀ c ∈ pre, (c.id == chatId) = false) :
    moveChatToFront chatId (pre ++ x :: post) = x :: (pre ++ post) := by
  have h1 : (pre ++ x :: post).findIdx? (fun c => c.id == chatId) = some pre.length :=
    findIdx?_append_cons (fun c => c.id == chatId) pre post x hx hpre
  have h2 : (pre ++ x :: post)[pre.length]? = some x := getElem?_append_cons pre post x
  have h3 := splice_append_cons pre post x
  simp [moveChatToFront, h1, h2, h3]

theorem mem_moveChatToFront {c : Chat} {chatId : String} {l : List Chat}
    (h : c ∈ moveChatToFront chatId l) : c ∈ l := by
  unfold moveChatToFront at h
  split at h
  next i hf =>
    split at h
    next moved hg =>
      rcases List.mem_cons.mp h with h1 | h2
      · exact h1 ▸ List.get?_mem hg
      · rcases List.mem_append.mp h2 with h3 | h4
        · exact List.take_subset _ _ h3
        · exact List.drop_subset _ _ h4
    next => exact h
  next => exact h

theorem mem_receive_message {c' : Chat} (sel : Option String) (m : Message) (chatId : String)
    (ds : List Chat) (h : c' ∈ receive_message sel m chatId ds) :
    ∃ d ∈ ds, c' = receiveUpdateChat sel m chatId d ∨ c' = d := by
  unfold receive_message at h
  split at h
  · exact ⟨c', h, Or.inr rfl⟩
  · have h2 : c' ∈ ds.map (receiveUpdateChat sel m chatId) := mem_moveChatToFront h
    rcases List.mem_map.mp h2 with ⟨d, hd, hdc⟩
    exact ⟨d, hd, Or.inl hdc.symm⟩

theorem receive_message_eq (sel : Option String) (m : Message) (chatId : String)
    (pre post : List Chat) (target : Chat)
    (hT : target.id = chatId)
    (hpre : ∀ c ∈ pre, c.id ≠ chatId) (hpost : ∀ c ∈ post, c.id ≠ chatId) :
    receive_message sel m chatId (pre ++ target :: post)
      = receiveUpdateChat sel m chatId target :: (pre ++ post) := by
  have hex : ((pre ++ target :: post).any (fun chat => chat.id == chatId)) = true :=
    List.any_eq_true.mpr ⟨target, by simp, by simp [hT]⟩
  have hmap : (pre ++ target :: post).map (receiveUpdateChat sel m chatId)
      = pre ++ receiveUpdateChat sel m chatId target :: post := by
    rw [List.map_append, List.map_cons,
      map_id_of_fixed _ pre (fun c hc => receiveUpdateChat_skip sel m chatId c (hpre c hc)),
      map_id_of_fixed _ post (fun c hc => receiveUpdateChat_skip sel m chatId c (hpost c hc))]
  have hid : ((receiveUpdateChat sel m chatId target).id == chatId) = true := by
    simp [receiveUpdateChat_id, hT]
  have hpre2 : ∀ c ∈ pre, (c.id == chatId) = false := fun c hc => by simp [hpre c hc]
  unfold receive_message
  rw [hex]
  simp only [Bool.not_true, Bool.false_eq_true, if_false, hmap]
  exact moveChatToFront_eq chatId pre post _ hid hpre2

theorem sendMessageOptimistic_eq (msg : Message) (chatId : String)
    (pre post : List Chat) (target : Chat)
    (hT : target.id = chatId) (hpre : ∀ c ∈ pre, c.id ≠ chatId) :
    sendMessageOptimistic msg chatId (pre ++ target :: post)
      = { target with
            messages := target.messages ++ [msg],
            lastMessage := some msg,
            unreadCount := 0 } :: (pre ++ post) := by
  have h1 : (pre ++ target :: post).findIdx? (fun c => c.id == chatId) = some pre.length :=
    findIdx?_append_cons (fun c => c.id == chatId) pre post target (by simp [hT])
      (fun c hc => by simp [hpre c hc])
  have h2 : (pre ++ target :: post)[pre.length]? = some target := getElem?_append_cons pre post target
  have h3 := splice_append_cons pre post target
  simp [sendMessageOptimistic, h1, h2, h3]

theorem ackRename_id_of_eq {tempId serverId : String} {m : Message} (h : m.id = tempId) :
    ackRename tempId serverId m = { m with id := serverId, status := some MessageStatus.delivered } := by
  simp [ackRename, h]

theorem ackRename_id_of_ne {tempId serverId : String} {m : Message} (h : m.id ≠ tempId) :
    ackRename tempId serverId m = m := by
  simp [ackRename, h]

theorem countP_map_ackRename (tempId serverId : String) (h : tempId ≠ serverId) (msgs : List Message) :
    (msgs.map (ackRename tempId serverId)).countP (fun m => m.id == serverId)
      = msgs.countP (fun m => m.id == tempId) + msgs.countP (fun m => m.id == serverId) := by
  induction msgs with
  | nil => rfl
  | cons m ms ih =>
    by_cases hm : m.id = tempId
    · have hms : m.id ≠ serverId := by rw [hm]; exact h
      rw [List.map_cons, ackRename_id_of_eq hm]
      rw [List.countP_cons_of_pos (p := fun (x : Message) => x.id == serverId) _ (by simp),
        List.countP_cons_of_pos (p := fun (x : Message) => x.id == tempId) _ (by simp [hm]),
        List.countP_cons_of_neg (p := fun (x : Message) => x.id == serverId) _ (by simp [hms]), ih]
      omega
    · rw [List.map_cons, ackRename_id_of_ne hm]
      by_cases hs : m.id = serverId
      · rw [List.countP_cons_of_pos (p := fun (x : Message) => x.id == serverId) _ (by simp [hs]),
          List.countP_cons_of_neg (p := fun (x : Message) => x.id == tempId) _ (by simp [hm]),
          List.countP_cons_of_pos (p := fun (x : Message) => x.id == serverId) _ (by simp [hs]), ih]
        omega
      · rw [List.countP_cons_of_neg (p := fun (x : Message) => x.id == serverId) _ (by simp [hs]),
          List.countP_cons_of_neg (p := fun (x : Message) => x.id == tempId) _ (by simp [hm]),
          List.countP_cons_of_neg (p := fun (x : Message) => x.id == serverId) _ (by simp [hs]), ih]

theorem find?_map_ackRename (tempId serverId : String) (msgs : List Message)
    (hK : ∀ m ∈ msgs, m.id ≠ serverId) :
    (msgs.map (ackRename tempId serverId)).find? (fun m => m.id == serverId)
      = (msgs.find? (fun m => m.id == tempId)).map (ackRename tempId serverId) := by
  induction msgs with
  | nil => rfl
  | cons m ms ih =>
    by_cases hm : m.id = tempId
    · have e1 : ((ackRename tempId serverId m).id == serverId) = true := by
        rw [ackRename_id_of_eq hm]; simp
      have e2 : (m.id == tempId) = true := by simp [hm]
      rw [List.map_cons, List.find?_cons_of_pos (p := fun (x : Message) => x.id == serverId) _ e1,
        List.find?_cons_of_pos (p := fun (x : Message) => x.id == tempId) _ e2]
      rfl
    · have e0 : ackRename tempId serverId m = m := ackRename_id_of_ne hm
      have e1 : ¬ ((fun x => x.id == serverId) (ackRename tempId serverId m)) = true := by
        rw [e0]; simp [hK m (by simp)]
      have e2 : ¬ ((fun x => x.id == tempId) m) = true := by simp [hm]
      rw [List.map_cons, List.find?_cons_of_neg (p := fun (x : Message) => x.id == serverId) _ e1,
        List.find?_cons_of_neg (p := fun (x : Message) => x.id == tempId) _ e2]
      exact ih (fun x hx => hK x (by simp [hx]))

theorem failRename_id (tempId : String) (err : Option String) (m : Message) :
    (failRename tempId err m).id = m.id := by
  unfold failRename
  split
  · rfl
  · rfl

theorem filter_map_failRename (tempId : String) (err : Option String) (msgs : List Message) :
    (msgs.map (failRename tempId err)).filter (fun m => !(m.id == tempId))
      = msgs.filter (fun m => !(m.id == tempId)) := by
  induction msgs with
  | nil => rfl
  | cons m ms ih =>
    by_cases hm : m.id = tempId
    · have e1 : (!((failRename tempId err m).id == tempId)) = false := by
        simp [failRename_id, hm]
      have e2 : (!(m.id == tempId)) = false := by simp [hm]
      rw [List.map_cons, List.filter_cons, List.filter_cons, e1, e2]
      simpa using ih
    · have e0 : failRename tempId err m = m := by simp [failRename, hm]
      have e2 : (!(m.id == tempId)) = true := by simp [hm]
      rw [List.map_cons, e0, List.filter_cons, List.filter_cons, e2]
      simpa using ih

theorem receiveUpdateChat_fresh (sel : Option String) (m : Message) (chatId : String) (c : Chat)
    (hid : c.id = chatId) (hnew : ∀ y ∈ c.messages, y.id ≠ m.id) (hsel : sel ≠ some chatId) :
    receiveUpdateChat sel m chatId c
      = { c with
            messages := c.messages ++ [m],
            lastMessage := some m,
            unreadCount := c.unreadCount + 1 } := by
  have h1 : (c.id == chatId) = true := by simp [hid]
  have h2 : (c.messages.any (fun y => y.id == m.id)) = false := by
    rw [List.any_eq_false]
    intro y hy
    simp [hnew y hy]
  have h3 : (some c.id == sel) = false := some_beq_eq_false (by rw [hid]; exact hsel)
  unfold receiveUpdateChat
  rw [h1, h2, h3]
  simp

theorem receiveAll_head (sel : Option String) (chatId : String) (msgs : List Message)
    (target : Chat) (rest : List Chat)
    (hT : target.id = chatId) (hrest : ∀ c ∈ rest, c.id ≠ chatId)
    (hsel : sel ≠ some chatId)
    (hdistinct : msgs.Pairwise (fun a b => a.id ≠ b.id))
    (hnew : ∀ x ∈ msgs, ∀ y ∈ target.messages, y.id ≠ x.id) :
    ∃ t', receiveAll sel chatId msgs (target :: rest) = t' :: rest ∧
      t'.id = chatId ∧
      t'.messages = target.messages ++ msgs ∧
      t'.unreadCount = target.unreadCount + msgs.length := by
  induction msgs generalizing target with
  | nil => exact ⟨target, by simp [receiveAll], hT, by simp, by simp⟩
  | cons m ms ih =>
    have hstep : receive_message sel m chatId (target :: rest)
        = receiveUpdateChat sel m chatId target :: rest :=
      receive_message_eq sel m chatId [] rest target hT (by simp) hrest
    have hupd : receiveUpdateChat sel m chatId target
        = { target with
              messages := target.messages ++ [m],
              lastMessage := some m,
              unreadCount := target.unreadCount + 1 } :=
      receiveUpdateChat_fresh sel m chatId target hT (fun y hy => hnew m (by simp) y hy) hsel
    have hnew2 : ∀ x ∈ ms, ∀ y ∈ target.messages ++ [m], y.id ≠ x.id := by
      intro x hx y hy
      rcases List.mem_append.mp hy with hy1 | hy2
      · exact hnew x (by simp [hx]) y hy1
      · have : y = m := by simpa using hy2
        subst this
        exact (List.pairwise_cons.mp hdistinct).1 x hx
    obtain ⟨t', he, hid, hmsgs, hcnt⟩ :=
      ih { target with
            messages := target.messages ++ [m],
            lastMessage := some m,
            unreadCount := target.unreadCount + 1 }
        hT (List.Pairwise.of_cons hdistinct) hnew2
    refine ⟨t', ?_, hid, ?_, ?_⟩
    · rw [receiveAll, List.foldl_cons, hstep, hupd]
      exact he
    · rw [hmsgs]
      simp
    · rw [hcnt]
      simp only [List.length_cons]
      omega

/-- A concrete user for witnesses and counterexamples. -/
def userA : User := { id := "uA", name := "Ann", avatarUrl := "a", isOnline := true }

/-- A second concrete user. -/
def userB : User := { id := "uB", name := "Ben", avatarUrl := "b", isOnline := true }

/-- A received message already marked `read`. -/
def msg0 : Message :=
  { id := "m0", sender := userB, content := "hello", timestamp := 1,
    type := MessageType.text, status := some MessageStatus.read, error := none }

/-- An optimistically sent message carrying its temporary local id. -/
def msgLocal : Message :=
  { id := "temp_1", sender := userA, content := "hi", timestamp := 2,
    type := MessageType.text, status := some MessageStatus.sent, error := none }

/-- The same message as broadcast back by the server with a confirmed id. -/
def msgServer : Message :=
  { id := "srv_1", sender := userA, content := "hi", timestamp := 2,
    type := MessageType.text, status := some MessageStatus.sent, error := none }

/-- A chat holding a read message and an in-flight local message. -/
def chatC1 : Chat :=
  { id := "c1", name := none, isGroup := false, participants := [userA, userB],
    messages := [msg0, msgLocal], lastMessage := some msgLocal, unreadCount := 0 }

/-- A chat holding only the in-flight local message. -/
def chatOnlyLocal : Chat :=
  { id := "c1", name := none, isGroup := false, participants := [userA, userB],
    messages := [msgLocal], lastMessage := some msgLocal, unreadCount := 0 }

/-- An empty chat. -/
def chatEmpty : Chat :=
  { id := "c1", name := none, isGroup := false, participants := [userA, userB],
    messages := [], lastMessage := none, unreadCount := 0 }

/-- An unrelated chat with a different id. -/
def chatOther : Chat :=
  { id := "c2", name := none, isGroup := false, participants := [userA, userB],
    messages := [], lastMessage := none, unreadCount := 0 }

/-- An authoritative server payload for chat `c1` that does not carry the
locally pending message. -/
def chatC1Incoming : Chat :=
  { id := "c1", name := none, isGroup := false, participants := [userA, userB],
    messages := [msg0], lastMessage := some msg0, unreadCount := 0 }

/-- Claim C1 (amended): the `message_status_update` handler sets the status
of the addressed message to exactly the received value, regardless of the
status the message currently has; there is no forward-only guard, so a
`delivered` update arriving after the message is already `read` moves the
status back to `delivered`. -/
theorem C1_status_update_overwrites
    (cs : List Chat) (chatId msgId : String) (st : MessageStatus)
    (c : Chat) (m : Message)
    (hc : c ∈ cs) (hcid : c.id = chatId) (hm : m ∈ c.messages) (hmid : m.id = msgId) :
    ∃ c' ∈ message_status_update chatId msgId st cs,
      c'.id = chatId ∧ { m with status := some st } ∈ c'.messages := by
  refine ⟨{ c with messages := c.messages.map (statusRename msgId st) }, ?_, hcid, ?_⟩
  · have h1 : (fun chat => if chat.id == chatId then
        { chat with messages := chat.messages.map (statusRename msgId st) } else chat) c
      = { c with messages := c.messages.map (statusRename msgId st) } := by
      simp [hcid]
    exact h1 ▸ List.mem_map_of_mem _ hc
  · have hr : statusRename msgId st m = { m with status := some st } := by
      simp [statusRename, hmid]
    exact hr ▸ List.mem_map_of_mem _ hm

/-- Claim C1, counterexample to the claim as stated: in a store holding the
message `m0` with status `read`, a `message_status_update` carrying
`delivered` does not leave the status at `read`: it overwrites it with
`delivered`. -/
theorem C1_counterexample :
    msg0.status = some MessageStatus.read ∧
    findMessage (message_status_update "c1" "m0" MessageStatus.delivered [chatC1]) "c1" "m0"
      = some { msg0 with status := some MessageStatus.delivered } ∧
    findMessage (message_status_update "c1" "m0" MessageStatus.delivered [chatC1]) "c1" "m0"
      ≠ some msg0 :=
  ⟨rfl, by decide, by decide⟩

/-- Witness for `C1_status_update_overwrites` at a concrete input. -/
theorem C1_status_update_overwrites_witness :
    ∃ c' ∈ message_status_update "c1" "m0" MessageStatus.delivered [chatC1],
      c'.id = "c1" ∧ { msg0 with status := some MessageStatus.delivered } ∈ c'.messages :=
  C1_status_update_overwrites [chatC1] "c1" "m0" MessageStatus.delivered chatC1 msg0
    (by decide) (by decide) (by decide) (by decide)

/-- Claim C3 (amended): a user-initiated send constructs a new message
whose status is `sent` (not `pending`), appends it to the target chat,
sets the `lastMessage` of that chat to the new message, and moves the chat
to index `0`, all in the optimistic update before any server reply. -/
theorem C3_send_optimistic
    (pre post : List Chat) (target : Chat) (chatId tempId content : String)
    (sender : User) (ts : Nat) (ty : MessageType)
    (hT : target.id = chatId) (hpre : ∀ c ∈ pre, c.id ≠ chatId) :
    (mkSendMessage tempId sender content ts ty).status = some MessageStatus.sent ∧
    sendMessageOptimistic (mkSendMessage tempId sender content ts ty) chatId (pre ++ target :: post)
      = { target with
            messages := target.messages ++ [mkSendMessage tempId sender content ts ty],
            lastMessage := some (mkSendMessage tempId sender content ts ty),
            unreadCount := 0 } :: (pre ++ post) :=
  ⟨rfl, sendMessageOptimistic_eq (mkSendMessage tempId sender content ts ty) chatId pre post target hT hpre⟩

/-- Claim C3, counterexample to the claim as stated: the optimistically
appended message has status `sent`, not `pending`. -/
theorem C3_counterexample :
    (sendMessageOptimistic (mkSendMessage "temp_1" userA "hi" 2 MessageType.text) "c1" [chatEmpty]).map
        (fun c => c.messages.map Message.status) = [[some MessageStatus.sent]] ∧
    some MessageStatus.sent ≠ some MessageStatus.pending :=
  ⟨by decide, by decide⟩

/-- Witness for `C3_send_optimistic` at a concrete input. -/
theorem C3_send_optimistic_witness :
    (mkSendMessage "temp_1" userA "hi" 2 MessageType.text).status = some MessageStatus.sent ∧
    sendMessageOptimistic (mkSendMessage "temp_1" userA "hi" 2 MessageType.text) "c1"
        ([] ++ chatEmpty :: [chatOther])
      = { chatEmpty with
            messages := chatEmpty.messages ++ [mkSendMessage "temp_1" userA "hi" 2 MessageType.text],
            lastMessage := some (mkSendMessage "temp_1" userA "hi" 2 MessageType.text),
            unreadCount := 0 } :: ([] ++ [chatOther]) :=
  C3_send_optimistic [] [chatOther] chatEmpty "c1" "temp_1" "hi" userA 2 MessageType.text
    (by decide) (by simp)

/-- Claim C8 (amended): when a `direct_chat_started` payload arrives for a
chat id already present, the incoming chat replaces the stored chat
wholesale and is moved to the front: locally pending messages absent from
the payload are discarded, not merged. -/
theorem C8_upsert_replaces_wholesale
    (cs : List Chat) (newChat : Chat)
    (hex : ∃ c ∈ cs, c.id = newChat.id) :
    direct_chat_started newChat cs = newChat :: cs.filter (fun c => !(c.id == newChat.id)) ∧
    ∀ c' ∈ direct_chat_started newChat cs, c'.id = newChat.id → c' = newChat := by
  obtain ⟨c, hc, hcid⟩ := hex
  have hany : (cs.any (fun c => c.id == newChat.id)) = true :=
    List.any_eq_true.mpr ⟨c, hc, by simp [hcid]⟩
  have heq : direct_chat_started newChat cs
      = newChat :: cs.filter (fun c => !(c.id == newChat.id)) := by
    unfold direct_chat_started
    rw [hany]
    simp
  refine ⟨heq, ?_⟩
  intro c' hc' hid
  rw [heq] at hc'
  rcases List.mem_cons.mp hc' with h1 | h2
  · exact h1
  · exfalso
    have hpred := (List.mem_filter.mp h2).2
    simp [hid] at hpred

/-- Claim C8, counterexample to the claim as stated: the chat `c1` holds
the locally pending message `temp_1`; the incoming authoritative payload
for `c1` does not carry it; after `direct_chat_started` the pending
message is gone from the store instead of being preserved by a merge. -/
theorem C8_counterexample :
    msgLocal ∈ chatOnlyLocal.messages ∧
    direct_chat_started chatC1Incoming [chatOnlyLocal] = [chatC1Incoming] ∧
    msgLocal ∉ chatC1Incoming.messages :=
  ⟨by decide, by decide, by decide⟩

/-- Witness for `C8_upsert_replaces_wholesale` at a concrete input. -/
theorem C8_upsert_replaces_wholesale_witness :
    direct_chat_started chatC1Incoming [chatOnlyLocal]
        = chatC1Incoming :: [chatOnlyLocal].filter (fun c => !(c.id == chatC1Incoming.id)) ∧
    ∀ c' ∈ direct_chat_started chatC1Incoming [chatOnlyLocal],
      c'.id = chatC1Incoming.id → c' = chatC1Incoming :=
  C8_upsert_replaces_wholesale [chatOnlyLocal] chatC1Incoming ⟨chatOnlyLocal, by decide, by decide⟩

theorem sendMessageFailureAckChat_messages (chatId tempId : String) (err : Option String)
    (c : Chat) (hcid : c.id = chatId) :
    (sendMessageFailureAckChat chatId tempId err c).messages
      = c.messages.map (failRename tempId err) := by
  have hb : (c.id == chatId) = true := by simp [hcid]
  unfold sendMessageFailureAckChat
  rw [if_pos hb]

theorem sendMessageFailureAckChat_id (chatId tempId : String) (err : Option String) (c : Chat) :
    (sendMessageFailureAckChat chatId tempId err c).id = c.id := by
  unfold sendMessageFailureAckChat
  split
  · rfl
  · rfl

theorem sendMessageFailureAckChat_lastMessage (chatId tempId : String) (err : Option String)
    (c : Chat) (lm : Message)
    (hcid : c.id = chatId) (hlm : c.lastMessage = some lm) (hlmid : lm.id = tempId) :
    (sendMessageFailureAckChat chatId tempId err c).lastMessage
      = (c.messages.filter (fun x => !(x.id == tempId))).getLast? := by
  have hb : (c.id == chatId) = true := by simp [hcid]
  have hlb : (lm.id == tempId) = true := by simp [hlmid]
  unfold sendMessageFailureAckChat
  rw [if_pos hb]
  show (match c.lastMessage with
    | some lm' =>
      if lm'.id == tempId
      then ((c.messages.map (failRename tempId err)).filter (fun (m : Message) => !(m.id == tempId))).getLast?
      else c.lastMessage
    | none => none) = _
  rw [hlm]
  show (if lm.id == tempId
      then ((c.messages.map (failRename tempId err)).filter (fun (m : Message) => !(m.id == tempId))).getLast?
      else some lm) = _
  rw [if_pos hlb, filter_map_failRename]

/-- Claim C4 (amended): on a failure acknowledgement with error reason E,
the addressed message stays in the chat with its local id, but its status
is cleared to `undefined` (not set to `failed`) and a separate `error`
field is set to E (to the fallback text when E is absent or empty); and
when the chat `lastMessage` pointed at the local id, it is reverted to the
last message whose id differs, instead of still pointing at the failed
message. -/
theorem C4_failure_ack
    (cs : List Chat) (chatId tempId : String) (err : Option String)
    (c : Chat) (m : Message)
    (hc : c ∈ cs) (hcid : c.id = chatId) (hm : m ∈ c.messages) (hmid : m.id = tempId) :
    ∃ c' ∈ sendMessageFailureAck chatId tempId err cs,
      c'.id = chatId ∧
      c'.messages.length = c.messages.length ∧
      { m with status := none, error := some (jsOrElse err "Failed to send") } ∈ c'.messages ∧
      (∀ lm, c.lastMessage = some lm → lm.id = tempId →
        c'.lastMessage = (c.messages.filter (fun x => !(x.id == tempId))).getLast?) := by
  refine ⟨sendMessageFailureAckChat chatId tempId err c, List.mem_map_of_mem _ hc, ?_, ?_, ?_, ?_⟩
  · rw [sendMessageFailureAckChat_id]
    exact hcid
  · rw [sendMessageFailureAckChat_messages chatId tempId err c hcid]
    exact List.length_map _ _
  · rw [sendMessageFailureAckChat_messages chatId tempId err c hcid]
    have hr : failRename tempId err m
        = { m with status := none, error := some (jsOrElse err "Failed to send") } := by
      simp [failRename, hmid]
    exact hr ▸ List.mem_map_of_mem _ hm
  · intro lm hlm hlmid
    exact sendMessageFailureAckChat_lastMessage chatId tempId err c lm hcid hlm hlmid

/-- Claim C4, counterexample to the claim as stated: after a failure
acknowledgement with error `offline`, the local message has status
`undefined` (not `failed`; the reason lands in a separate `error` field),
and the chat `lastMessage` no longer points at the failed message: it is
reverted to the preceding message `m0`. -/
theorem C4_counterexample :
    findMessage (sendMessageFailureAck "c1" "temp_1" (some "offline") [chatC1]) "c1" "temp_1"
      = some { msgLocal with status := none, error := some "offline" } ∧
    (none : Option MessageStatus) ≠ some MessageStatus.failed ∧
    (sendMessageFailureAck "c1" "temp_1" (some "offline") [chatC1]).map Chat.lastMessage
      = [some msg0] ∧
    msg0.id ≠ "temp_1" :=
  ⟨by decide, by decide, by decide, by decide⟩

/-- Witness for `C4_failure_ack` at a concrete input. -/
theorem C4_failure_ack_witness :
    ∃ c' ∈ sendMessageFailureAck "c1" "temp_1" (some "offline") [chatC1],
      c'.id = "c1" ∧
      c'.messages.length = chatC1.messages.length ∧
      { msgLocal with status := none, error := some (jsOrElse (some "offline") "Failed to send") }
        ∈ c'.messages ∧
      (∀ lm, chatC1.lastMessage = some lm → lm.id = "temp_1" →
        c'.lastMessage = (chatC1.messages.filter (fun x => !(x.id == "temp_1"))).getLast?) :=
  C4_failure_ack [chatC1] "c1" "temp_1" (some "offline") chatC1 msgLocal
    (by decide) (by decide) (by decide) (by decide)

theorem sendMessageSuccessAckChat_messages (chatId tempId serverId : String)
    (c : Chat) (hcid : c.id = chatId) :
    (sendMessageSuccessAckChat chatId tempId serverId c).messages
      = c.messages.map (ackRename tempId serverId) := by
  have hb : (c.id == chatId) = true := by simp [hcid]
  unfold sendMessageSuccessAckChat
  rw [if_pos hb]

theorem sendMessageSuccessAckChat_skip (chatId tempId serverId : String) (c : Chat)
    (h : c.id ≠ chatId) :
    sendMessageSuccessAckChat chatId tempId serverId c = c := by
  unfold sendMessageSuccessAckChat
  rw [if_neg (by simp [h])]

theorem sendMessageSuccessAckChat_lastMessage (chatId tempId serverId : String)
    (c : Chat) (lm : Message)
    (hcid : c.id = chatId) (hlm : c.lastMessage = some lm) (hlmid : lm.id = tempId)
    (hK : ∀ x ∈ c.messages, x.id ≠ serverId)
    (hEx : ∃ x ∈ c.messages, x.id = tempId) :
    (sendMessageSuccessAckChat chatId tempId serverId c).lastMessage
      = (c.messages.find? (fun x => x.id == tempId)).map (ackRename tempId serverId) := by
  have hb : (c.id == chatId) = true := by simp [hcid]
  have hlb : (lm.id == tempId) = true := by simp [hlmid]
  obtain ⟨x, hx, hxid⟩ := hEx
  have hfs : (c.messages.find? (fun y => y.id == tempId)).isSome = true := by
    rw [List.find?_isSome]
    exact ⟨x, hx, by simp [hxid]⟩
  obtain ⟨z, hz⟩ := Option.isSome_iff_exists.mp hfs
  have hfind : (c.messages.map (ackRename tempId serverId)).find? (fun y => y.id == serverId)
      = some (ackRename tempId serverId z) := by
    rw [find?_map_ackRename tempId serverId c.messages hK, hz]
    rfl
  unfold sendMessageSuccessAckChat
  rw [if_pos hb]
  show (match c.lastMessage with
    | some lm' =>
      if lm'.id == tempId
      then
        match (c.messages.map (ackRename tempId serverId)).find? (fun (y : Message) => y.id == serverId) with
        | some y => some y
        | none => c.lastMessage
      else c.lastMessage
    | none => c.lastMessage) = _
  rw [hlm]
  show (if lm.id == tempId
      then
        match (c.messages.map (ackRename tempId serverId)).find? (fun (y : Message) => y.id == serverId) with
        | some y => some y
        | none => some lm
      else some lm) = _
  rw [if_pos hlb, hfind, hz]
  rfl

/-- Claim C5 (amended): on a success acknowledgement carrying confirmed id
K for local id L, the addressed chat keeps its message list length and
every entry keeps its position, content, timestamp, sender and type; the
entry with id L gets id K and, additionally, its status is set to
`delivered` (so the id and `lastMessage` are not the only updated fields);
entries with other ids are untouched; when `lastMessage` pointed at L and
an entry with id L exists, `lastMessage` is repointed at the renamed
entry; chats with a different id are not modified. -/
theorem C5_success_ack
    (cs : List Chat) (chatId tempId serverId : String) (c : Chat)
    (hc : c ∈ cs) (hcid : c.id = chatId)
    (hK : ∀ x ∈ c.messages, x.id ≠ serverId) :
    ∃ c' ∈ sendMessageSuccessAck chatId tempId serverId cs,
      c'.id = chatId ∧
      c'.messages.length = c.messages.length ∧
      (∀ i x, c.messages.get? i = some x →
        c'.messages.get? i = some (ackRename tempId serverId x) ∧
        (ackRename tempId serverId x).content = x.content ∧
        (ackRename tempId serverId x).timestamp = x.timestamp ∧
        (ackRename tempId serverId x).sender = x.sender ∧
        (ackRename tempId serverId x).type = x.type ∧
        (x.id = tempId → (ackRename tempId serverId x).id = serverId ∧
          (ackRename tempId serverId x).status = some MessageStatus.delivered) ∧
        (x.id ≠ tempId → ackRename tempId serverId x = x)) ∧
      (∀ lm, c.lastMessage = some lm → lm.id = tempId → (∃ x ∈ c.messages, x.id = tempId) →
        c'.lastMessage = (c.messages.find? (fun x => x.id == tempId)).map (ackRename tempId serverId)) ∧
      (∀ d ∈ cs, d.id ≠ chatId → d ∈ sendMessageSuccessAck chatId tempId serverId cs) := by
  refine ⟨sendMessageSuccessAckChat chatId tempId serverId c, List.mem_map_of_mem _ hc,
    ?_, ?_, ?_, ?_, ?_⟩
  · rw [sendMessageSuccessAckChat_id]
    exact hcid
  · rw [sendMessageSuccessAckChat_messages chatId tempId serverId c hcid]
    exact List.length_map _ _
  · intro i x hx
    refine ⟨?_, ?_, ?_, ?_, ?_, ?_, ?_⟩
    · rw [sendMessageSuccessAckChat_messages chatId tempId serverId c hcid, List.get?_map, hx]
      rfl
    · by_cases ht : x.id = tempId
      · rw [ackRename_id_of_eq ht]
      · rw [ackRename_id_of_ne ht]
    · by_cases ht : x.id = tempId
      · rw [ackRename_id_of_eq ht]
      · rw [ackRename_id_of_ne ht]
    · by_cases ht : x.id = tempId
      · rw [ackRename_id_of_eq ht]
      · rw [ackRename_id_of_ne ht]
    · by_cases ht : x.id = tempId
      · rw [ackRename_id_of_eq ht]
      · rw [ackRename_id_of_ne ht]
    · intro ht
      rw [ackRename_id_of_eq ht]
      exact ⟨rfl, rfl⟩
    · intro ht
      exact ackRename_id_of_ne ht
  · intro lm hlm hlmid hEx
    exact sendMessageSuccessAckChat_lastMessage chatId tempId serverId c lm hcid hlm hlmid hK hEx
  · intro d hd hdid
    have : sendMessageSuccessAckChat chatId tempId serverId d = d :=
      sendMessageSuccessAckChat_skip chatId tempId serverId d hdid
    exact this ▸ List.mem_map_of_mem _ hd

/-- Claim C5, counterexample to the claim as stated: the success
acknowledgement does not only replace the id and repoint `lastMessage`:
it also rewrites the status of the entry from `sent` to `delivered`. -/
theorem C5_counterexample :
    msgLocal.status = some MessageStatus.sent ∧
    findMessage (sendMessageSuccessAck "c1" "temp_1" "srv_1" [chatC1]) "c1" "srv_1"
      = some { msgLocal with id := "srv_1", status := some MessageStatus.delivered } ∧
    some MessageStatus.delivered ≠ some MessageStatus.sent :=
  ⟨rfl, by decide, by decide⟩

/-- Witness for `C5_success_ack` at a concrete input. -/
theorem C5_success_ack_witness :
    ∃ c' ∈ sendMessageSuccessAck "c1" "temp_1" "srv_1" [chatC1, chatOther],
      c'.id = "c1" ∧
      c'.messages.length = chatC1.messages.length ∧
      (∀ i x, chatC1.messages.get? i = some x →
        c'.messages.get? i = some (ackRename "temp_1" "srv_1" x) ∧
        (ackRename "temp_1" "srv_1" x).content = x.content ∧
        (ackRename "temp_1" "srv_1" x).timestamp = x.timestamp ∧
        (ackRename "temp_1" "srv_1" x).sender = x.sender ∧
        (ackRename "temp_1" "srv_1" x).type = x.type ∧
        (x.id = "temp_1" → (ackRename "temp_1" "srv_1" x).id = "srv_1" ∧
          (ackRename "temp_1" "srv_1" x).status = some MessageStatus.delivered) ∧
        (x.id ≠ "temp_1" → ackRename "temp_1" "srv_1" x = x)) ∧
      (∀ lm, chatC1.lastMessage = some lm → lm.id = "temp_1" →
        (∃ x ∈ chatC1.messages, x.id = "temp_1") →
        c'.lastMessage
          = (chatC1.messages.find? (fun x => x.id == "temp_1")).map (ackRename "temp_1" "srv_1")) ∧
      (∀ d ∈ [chatC1, chatOther], d.id ≠ "c1" → d ∈ sendMessageSuccessAck "c1" "temp_1" "srv_1" [chatC1, chatOther]) :=
  C5_success_ack [chatC1, chatOther] "c1" "temp_1" "srv_1" chatC1
    (by decide) (by decide) (by decide)

theorem receiveUpdateChat_dup (sel : Option String) (m : Message) (chatId : String) (c : Chat)
    (hcid : c.id = chatId) (hdup : c.messages.any (fun y => y.id == m.id) = true) :
    receiveUpdateChat sel m chatId c = c := by
  unfold receiveUpdateChat
  rw [if_pos (by simp [hcid] : (c.id == chatId) = true), if_pos hdup]

/-- Claim C2 (amended): per-id dedup makes the broadcast and the success
acknowledgement commute into a single entry only when the acknowledgement
is applied first: in that order, every chat with the target id ends with
exactly one message carrying the confirmed id. When the broadcast is
applied first, it is appended next to the still-unrenamed local entry and
the later acknowledgement renames that local entry as well, leaving two
messages with the confirmed id, as the counterexample shows. -/
theorem C2_dedup_ack_first
    (sel : Option String) (cs : List Chat) (chatId tempId serverId : String) (m : Message)
    (hmid : m.id = serverId) (hne : tempId ≠ serverId)
    (hall : ∀ c ∈ cs, c.id = chatId →
      c.messages.countP (fun x => x.id == tempId) = 1 ∧
      c.messages.countP (fun x => x.id == serverId) = 0) :
    ∀ c' ∈ receive_message sel m chatId (sendMessageSuccessAck chatId tempId serverId cs),
      c'.id = chatId → c'.messages.countP (fun x => x.id == serverId) = 1 := by
  intro c' hc' hid
  obtain ⟨d, hd, hcase⟩ := mem_receive_message sel m chatId _ hc'
  obtain ⟨c0, hc0, hdc⟩ := List.mem_map.mp hd
  have hdid : d.id = c0.id := by rw [← hdc, sendMessageSuccessAckChat_id]
  by_cases hcc : c0.id = chatId
  · have hcnt : d.messages.countP (fun x => x.id == serverId) = 1 := by
      rw [← hdc, sendMessageSuccessAckChat_messages chatId tempId serverId c0 hcc,
        countP_map_ackRename tempId serverId hne c0.messages,
        (hall c0 hc0 hcc).1, (hall c0 hc0 hcc).2]
    have hdup : d.messages.any (fun y => y.id == m.id) = true := by
      apply List.any_eq_true.mpr
      obtain ⟨y, hy, hyp⟩ := List.countP_pos_iff.mp (by rw [hcnt]; exact Nat.one_pos)
      exact ⟨y, hy, by rw [hmid]; exact hyp⟩
    rcases hcase with h1 | h2
    · rw [h1, receiveUpdateChat_dup sel m chatId d (hdid.trans hcc) hdup]
      exact hcnt
    · rw [h2]
      exact hcnt
  · exfalso
    apply hcc
    rcases hcase with h1 | h2
    · rw [← hdid, ← receiveUpdateChat_id sel m chatId d, ← h1]
      exact hid
    · rw [← hdid, ← h2]
      exact hid

/-- Claim C2, counterexample to the claim as stated: with the broadcast
delivered before the acknowledgement, the final chat holds two messages
with the confirmed id `srv_1`, not exactly one. -/
theorem C2_counterexample :
    ¬ (∀ c' ∈ sendMessageSuccessAck "c1" "temp_1" "srv_1"
          (receive_message none msgServer "c1" [chatOnlyLocal]),
        c'.messages.countP (fun x => x.id == "srv_1") = 1) := by decide

/-- The concrete chat the store holds after the acknowledgement and then
the broadcast in the C2 witness scenario. -/
def chatAcked : Chat :=
  { id := "c1", name := none, isGroup := false, participants := [userA, userB],
    messages := [{ msgLocal with id := "srv_1", status := some MessageStatus.delivered }],
    lastMessage := some { msgLocal with id := "srv_1", status := some MessageStatus.delivered },
    unreadCount := 0 }

/-- Witness for `C2_dedup_ack_first` at a concrete input. -/
theorem C2_dedup_ack_first_witness :
    chatAcked ∈ receive_message none msgServer "c1"
        (sendMessageSuccessAck "c1" "temp_1" "srv_1" [chatOnlyLocal]) ∧
    chatAcked.id = "c1" ∧
    chatAcked.messages.countP (fun x => x.id == "srv_1") = 1 :=
  ⟨by decide, by decide,
    C2_dedup_ack_first none [chatOnlyLocal] "c1" "temp_1" "srv_1" msgServer
      (by decide) (by decide) (by decide) chatAcked (by decide) (by decide)⟩

/-- The `create_group` acknowledgement chat for the witnesses. -/
def groupAckChat : Chat :=
  { id := "g1", name := some "Team", isGroup := true, participants := [userA, userB],
    messages := [], lastMessage := none, unreadCount := 0 }

/-- The `group_created` broadcast chat with the same id for the
witnesses. -/
def groupBroadcastChat : Chat :=
  { id := "g1", name := some "Team", isGroup := true, participants := [userB, userA],
    messages := [], lastMessage := none, unreadCount := 0 }

/-- Claim C7: when the `create_group` acknowledgement and the independent
`group_created` broadcast carry the same chat id and that id is not yet in
the store, applying them in either order leaves exactly one chat with that
id in the store. -/
theorem C7_group_dedup
    (cs : List Chat) (ackChat bChat : Chat) (gid : String)
    (ha : ackChat.id = gid) (hb : bChat.id = gid)
    (h0 : ∀ c ∈ cs, c.id ≠ gid) :
    (group_created bChat (createGroupAck ackChat cs)).countP (fun c => c.id == gid) = 1 ∧
    (createGroupAck ackChat (group_created bChat cs)).countP (fun c => c.id == gid) = 1 := by
  have hcs0 : cs.countP (fun c => c.id == gid) = 0 := by
    rw [List.countP_eq_zero]
    intro c hc
    simp [h0 c hc]
  have hackT : (ackChat.id == gid) = true := by simp [ha]
  constructor
  · have hanyA : (cs.any (fun c => c.id == ackChat.id)) = false := by
      rw [List.any_eq_false]
      intro c hc
      simp [ha, h0 c hc]
    have e1 : createGroupAck ackChat cs = ackChat :: cs := by
      unfold createGroupAck
      rw [hanyA]
      simp
    have hanyB : ((ackChat :: cs).any (fun c => c.id == bChat.id)) = true :=
      List.any_eq_true.mpr ⟨ackChat, by simp, by simp [ha, hb]⟩
    have e2 : group_created bChat (ackChat :: cs) = ackChat :: cs := by
      unfold group_created
      rw [if_pos hanyB]
    rw [e1, e2, List.countP_cons_of_pos (p := fun (c : Chat) => c.id == gid) _ hackT, hcs0]
  · have hanyB0 : (cs.any (fun c => c.id == bChat.id)) = false := by
      rw [List.any_eq_false]
      intro c hc
      simp [hb, h0 c hc]
    have e3 : group_created bChat cs = bChat :: cs := by
      unfold group_created
      rw [hanyB0]
      simp
    have hanyA2 : ((bChat :: cs).any (fun c => c.id == ackChat.id)) = true :=
      List.any_eq_true.mpr ⟨bChat, by simp, by simp [ha, hb]⟩
    have e4 : createGroupAck ackChat (bChat :: cs)
        = ackChat :: (bChat :: cs).filter (fun c => !(c.id == ackChat.id)) := by
      unfold createGroupAck
      rw [if_pos hanyA2]
    have e5 : (bChat :: cs).filter (fun c => !(c.id == ackChat.id))
        = cs.filter (fun c => !(c.id == ackChat.id)) := by
      rw [List.filter_cons]
      simp [ha, hb]
    have hcsF : (cs.filter (fun c => !(c.id == ackChat.id))).countP (fun c => c.id == gid) = 0 := by
      rw [List.countP_eq_zero]
      intro c hc
      simp [h0 c (List.mem_filter.mp hc).1]
    rw [e3, e4, e5, List.countP_cons_of_pos (p := fun (c : Chat) => c.id == gid) _ hackT, hcsF]

/-- Witness for `C7_group_dedup` at a concrete input. -/
theorem C7_group_dedup_witness :
    (group_created groupBroadcastChat (createGroupAck groupAckChat [chatOther])).countP
        (fun c => c.id == "g1") = 1 ∧
    (createGroupAck groupAckChat (group_created groupBroadcastChat [chatOther])).countP
        (fun c => c.id == "g1") = 1 :=
  C7_group_dedup [chatOther] groupAckChat groupBroadcastChat "g1"
    (by decide) (by decide) (by decide)

/-- Claim C9: a transport disconnect whose reason is not the explicit
client logout clears the chat store, resets the user list to the
module-level fallback (not a stale snapshot) and clears the selection; and
the `initial_data` user-list computation marks every user absent from the
online snapshot as offline, except the current session user, who is forced
online. -/
theorem C9_disconnect_and_bootstrap
    (s : AppState) (reason : String) (initialUser : User)
    (allUsers : List User) (onlineUsers : List (String × String)) (uid : String)
    (hr : reason ≠ "io client disconnect")
    (habsent : ∀ p ∈ onlineUsers, p.1 ≠ uid)
    (hnotself : uid ≠ initialUser.id) :
    (onDisconnect reason s).chats = [] ∧
    (onDisconnect reason s).availableUsers = initialAvailableUsers ∧
    (onDisconnect reason s).selectedChatId = none ∧
    (∀ u ∈ initialDataUsers initialUser allUsers onlineUsers, u.id = uid → u.isOnline = false) ∧
    (∀ u ∈ initialDataUsers initialUser allUsers onlineUsers,
      u.id = initialUser.id → u.isOnline = true) := by
  have hlk : truthyLookup onlineUsers uid = false := by
    unfold truthyLookup
    have hf : onlineUsers.find? (fun p => p.1 == uid) = none := by
      rw [List.find?_eq_none]
      intro p hp
      simp [habsent p hp]
    rw [hf]
  refine ⟨?_, ?_, ?_, ?_, ?_⟩
  · simp [onDisconnect, hr]
  · simp [onDisconnect, hr]
  · simp [onDisconnect, hr]
  · intro u hu huid
    simp only [initialDataUsers] at hu
    obtain ⟨u0, hu0, hmap⟩ := List.mem_map.mp hu
    have hid : u.id = u0.id := by rw [← hmap]
    have huid0 : u0.id = uid := by rw [← hid, huid]
    have h2 : (u0.id == initialUser.id) = false := by
      rw [huid0]
      simp [hnotself]
    rw [← hmap]
    show (truthyLookup onlineUsers u0.id || (u0.id == initialUser.id)) = false
    rw [huid0, hlk]
    simp [hnotself]
  · intro u hu huid
    simp only [initialDataUsers] at hu
    obtain ⟨u0, hu0, hmap⟩ := List.mem_map.mp hu
    have hid : u.id = u0.id := by rw [← hmap]
    have huid0 : u0.id = initialUser.id := by rw [← hid, huid]
    have h2 : (u0.id == initialUser.id) = true := by simp [huid0]
    rw [← hmap]
    show (truthyLookup onlineUsers u0.id || (u0.id == initialUser.id)) = true
    rw [h2, Bool.or_true]

/-- Witness for `C9_disconnect_and_bootstrap` at a concrete input. -/
theorem C9_disconnect_and_bootstrap_witness :
    (onDisconnect "transport close" ⟨[chatC1], [userA, userB], some "c1"⟩).chats = [] ∧
    (onDisconnect "transport close" ⟨[chatC1], [userA, userB], some "c1"⟩).availableUsers
      = initialAvailableUsers ∧
    (onDisconnect "transport close" ⟨[chatC1], [userA, userB], some "c1"⟩).selectedChatId = none ∧
    (∀ u ∈ initialDataUsers userA [userA, userB] [("uA", "sock1")], u.id = "uB" → u.isOnline = false) ∧
    (∀ u ∈ initialDataUsers userA [userA, userB] [("uA", "sock1")],
      u.id = userA.id → u.isOnline = true) :=
  C9_disconnect_and_bootstrap ⟨[chatC1], [userA, userB], some "c1"⟩ "transport close" userA
    [userA, userB] [("uA", "sock1")] "uB" (by decide) (by decide) (by decide)

/-- Claim C10: the optimistic update of `handleSendMessage` resets the
target chat `unreadCount` to `0` in the same store update that appends the
message and moves the chat to the front; the update does not read the
selected-chat state at all (it behaves identically for non-selected
chats), and the handler emits only `send_message`, never `mark_as_read`,
so a non-zero unread count is discarded without informing the server. -/
theorem C10_send_discards_unread
    (pre post : List Chat) (target : Chat) (chatId : String) (msg : Message)
    (hT : target.id = chatId) (hpre : ∀ c ∈ pre, c.id ≠ chatId) :
    (∃ t', sendMessageOptimistic msg chatId (pre ++ target :: post) = t' :: (pre ++ post) ∧
      t'.unreadCount = 0 ∧ t'.messages = target.messages ++ [msg]) ∧
    (∀ e ∈ handleSendMessageEmits chatId msg, ∀ cid uid, e ≠ SocketEvent.mark_as_read cid uid) := by
  refine ⟨⟨_, sendMessageOptimistic_eq msg chatId pre post target hT hpre, rfl, rfl⟩, ?_⟩
  intro e he cid uid
  have he2 : e = SocketEvent.send_message chatId msg := by
    simpa [handleSendMessageEmits] using he
  rw [he2]
  intro hcontra
  exact SocketEvent.noConfusion hcontra

/-- A chat with a positive unread count for the C10 witness. -/
def chatUnread : Chat :=
  { id := "c1", name := none, isGroup := false, participants := [userA, userB],
    messages := [msg0], lastMessage := some msg0, unreadCount := 5 }

/-- Witness for `C10_send_discards_unread` at a concrete input: the chat
starts with `unreadCount = 5` and is not selected. -/
theorem C10_send_discards_unread_witness :
    (∃ t', sendMessageOptimistic msgLocal "c1" ([chatOther] ++ chatUnread :: [])
        = t' :: ([chatOther] ++ []) ∧
      t'.unreadCount = 0 ∧ t'.messages = chatUnread.messages ++ [msgLocal]) ∧
    (∀ e ∈ handleSendMessageEmits "c1" msgLocal,
      ∀ cid uid, e ≠ SocketEvent.mark_as_read cid uid) :=
  C10_send_discards_unread [chatOther] [] chatUnread "c1" msgLocal (by decide) (by decide)

/-- Claim C6: receiving a non-empty sequence of distinct new messages for
a present, non-selected chat increments its `unreadCount` by exactly one
per message, yielding the number of messages received; selecting that chat
afterwards resets its `unreadCount` to `0` and emits exactly one
`mark_as_read`. -/
theorem C6_unread_accounting
    (sel cur : Option String) (chatId : String)
    (pre post : List Chat) (target : Chat) (msgs : List Message)
    (hT : target.id = chatId)
    (hpre : ∀ c ∈ pre, c.id ≠ chatId) (hpost : ∀ c ∈ post, c.id ≠ chatId)
    (hsel : sel ≠ some chatId)
    (hcur : cur.isSome = true)
    (h0 : target.unreadCount = 0)
    (hne : msgs ≠ [])
    (hdistinct : msgs.Pairwise (fun a b => a.id ≠ b.id))
    (hnew : ∀ x ∈ msgs, ∀ y ∈ target.messages, y.id ≠ x.id) :
    ∃ t', receiveAll sel chatId msgs (pre ++ target :: post) = t' :: (pre ++ post) ∧
      t'.id = chatId ∧
      t'.unreadCount = msgs.length ∧
      selectChatEmitCount cur chatId (t' :: (pre ++ post)) = 1 ∧
      handleSelectChat cur chatId (t' :: (pre ++ post))
        = { t' with unreadCount := 0 } :: (pre ++ post) := by
  cases msgs with
  | nil => exact absurd rfl hne
  | cons m ms =>
    have hstep : receive_message sel m chatId (pre ++ target :: post)
        = receiveUpdateChat sel m chatId target :: (pre ++ post) :=
      receive_message_eq sel m chatId pre post target hT hpre hpost
    have hupd : receiveUpdateChat sel m chatId target
        = { target with
              messages := target.messages ++ [m],
              lastMessage := some m,
              unreadCount := target.unreadCount + 1 } :=
      receiveUpdateChat_fresh sel m chatId target hT (fun y hy => hnew m (by simp) y hy) hsel
    have hrest : ∀ c ∈ pre ++ post, c.id ≠ chatId := by
      intro c hc
      rcases List.mem_append.mp hc with h1 | h2
      · exact hpre c h1
      · exact hpost c h2
    have hnew2 : ∀ x ∈ ms, ∀ y ∈ target.messages ++ [m], y.id ≠ x.id := by
      intro x hx y hy
      rcases List.mem_append.mp hy with hy1 | hy2
      · exact hnew x (by simp [hx]) y hy1
      · have hym : y = m := by simpa using hy2
        subst hym
        exact (List.pairwise_cons.mp hdistinct).1 x hx
    obtain ⟨t', he, hid, hmsgs, hcnt⟩ :=
      receiveAll_head sel chatId ms
        { target with
            messages := target.messages ++ [m],
            lastMessage := some m,
            unreadCount := target.unreadCount + 1 }
        (pre ++ post) hT hrest hsel (List.Pairwise.of_cons hdistinct) hnew2
    have hfold : receiveAll sel chatId (m :: ms) (pre ++ target :: post) = t' :: (pre ++ post) := by
      rw [receiveAll, List.foldl_cons, hstep, hupd]
      exact he
    have hcnt' : t'.unreadCount = (m :: ms).length := by
      rw [hcnt]
      simp only [List.length_cons]
      rw [h0]
      omega
    have hguard : selectChatGuard cur chatId t' = true := by
      simp [selectChatGuard, hid, hcnt', hcur]
    have hguardRest : ∀ c ∈ pre ++ post, selectChatGuard cur chatId c = false := by
      intro c hc
      simp [selectChatGuard, hrest c hc]
    have hfilterRest : (pre ++ post).filter (selectChatGuard cur chatId) = [] :=
      List.filter_eq_nil_iff.mpr (fun c hc => by simp [hguardRest c hc])
    refine ⟨t', hfold, hid, hcnt', ?_, ?_⟩
    · unfold selectChatEmitCount
      rw [List.filter_cons]
      rw [hguard, hfilterRest]
      rfl
    · unfold handleSelectChat
      rw [List.map_cons]
      have hhead : selectChatUpdateChat cur chatId t' = { t' with unreadCount := 0 } := by
        unfold selectChatUpdateChat
        rw [if_pos hguard]
      have htail : (pre ++ post).map (selectChatUpdateChat cur chatId) = pre ++ post :=
        map_id_of_fixed _ _ (fun c hc => by
          unfold selectChatUpdateChat
          rw [hguardRest c hc]
          simp)
      rw [hhead, htail]

/-- A first fresh incoming message for the C6 witness. -/
def msgN1 : Message :=
  { id := "n1", sender := userB, content := "one", timestamp := 3,
    type := MessageType.text, status := none, error := none }

/-- A second fresh incoming message for the C6 witness. -/
def msgN2 : Message :=
  { id := "n2", sender := userB, content := "two", timestamp := 4,
    type := MessageType.text, status := none, error := none }

/-- Witness for `C6_unread_accounting` at a concrete input: two distinct
new messages arrive for the non-selected chat `c1`. -/
theorem C6_unread_accounting_witness :
    ∃ t', receiveAll none "c1" [msgN1, msgN2] ([chatOther] ++ chatEmpty :: [])
        = t' :: ([chatOther] ++ []) ∧
      t'.id = "c1" ∧
      t'.unreadCount = [msgN1, msgN2].length ∧
      selectChatEmitCount (some "uA") "c1" (t' :: ([chatOther] ++ [])) = 1 ∧
      handleSelectChat (some "uA") "c1" (t' :: ([chatOther] ++ []))
        = { t' with unreadCount := 0 } :: ([chatOther] ++ []) :=
  C6_unread_accounting none (some "uA") "c1" [chatOther] [] chatEmpty [msgN1, msgN2]
    (by decide) (by decide) (by decide) (by decide) (by decide) (by decide) (by decide)
    (by decide) (by decide)

end ChatterBox
